import Mathlib

/-!
Shallow embedding of `src/main.py` (delica-insight-bot).

DataFrames are modelled column-major: an ordered list of `(column name, cell list)`
pairs; pandas allows duplicate column labels, and so does this model (`lookupCol`
finds the first match, as `df[name]` effectively does on the frames this service
builds).  Calendar dates are serial day numbers (an `Int`) with day 0 falling on a
Monday, so pandas `dayofweek` (Monday = 0) is `d % 7`; consecutive serial days are
consecutive calendar days.  `pd.to_datetime` on well-formed date strings is
modelled by a parser of decimal serial-day numerals (the claims only need that
parsing is partial and deterministic); the ISO string `str(d.date())` used as a
forecast key is an injective formatting of the date, so the key is kept as the
date itself.  Floats are `ℚ`.  The LightGBM regressor is an opaque parameter of
type `Fit`: its fitting behaviour is irrelevant to every claim.
-/

inductive Val where
  | vStr : String → Val
  | vInt : Int → Val
  | vRat : ℚ → Val
  | vBool : Bool → Val
  | vDate : Int → Val
deriving DecidableEq, Repr

structure Frame where
  cols : List (String × List Val)
deriving DecidableEq, Repr

def names (df : Frame) : List String := df.cols.map Prod.fst

def lookupCol (df : Frame) (n : String) : Option (List Val) :=
  (df.cols.find? (fun c => c.1 = n)).map Prod.snd

/-- `df[n] = vs`: replace an existing column in place, else append it at the end. -/
def setCol (df : Frame) (n : String) (vs : List Val) : Frame :=
  if n ∈ names df then ⟨df.cols.map (fun c => if c.1 = n then (n, vs) else c)⟩
  else ⟨df.cols ++ [(n, vs)]⟩

def digitsToNat (s : String) : Nat :=
  s.data.foldl (fun a c => a * 10 + (c.toNat - 48)) 0

/-- Modelled from `pd.to_datetime` on a string: succeeds exactly on well-formed
date strings (here: decimal serial-day numerals), fails otherwise. -/
def parseDateString (s : String) : Option Int :=
  if s.data ≠ [] ∧ s.data.all Char.isDigit then some (digitsToNat s) else none

def parseDate : Val → Option Int
  | .vDate d => some d
  | .vStr s => parseDateString s
  | _ => none

/-- `pd.to_datetime` over a whole column: any malformed entry raises. -/
def parseAll : List Val → Option (List Int)
  | [] => some []
  | v :: vs =>
    match parseDate v, parseAll vs with
    | some d, some ds => some (d :: ds)
    | _, _ => none

/-- `dayofweek` of a serial date (Monday = 0). -/
def wd (d : Int) : Int := d % 7

/-- main.py line 132: dummy columns are named with prefix `曜日` and separator `_`. -/
def wdName (w : Int) : String := "曜日_" ++ toString w

/-- main.py line 143: `c.startswith("曜日_")` ( `"曜日_"` is three characters). -/
def isWdCol (s : String) : Bool := decide (s.data.take 3 = "曜日_".data)

def toWd : Val → Int
  | .vInt n => n
  | _ => 0

/-- main.py line 132: `pd.get_dummies(df, columns=["曜日"], prefix="曜日")`.
The `曜日` column is dropped and one boolean column per distinct value present is
appended, in ascending order of value (values here always lie in `0..6`). -/
def get_dummies_y (df : Frame) : Frame :=
  match lookupCol df "曜日" with
  | none => df
  | some vs =>
    ⟨df.cols.filter (fun c => ¬ (c.1 = "曜日")) ++
      (((List.range 7).map (fun n : Nat => (n : Int))).filter
          (fun w => decide (w ∈ vs.map toWd))).map
        (fun w => (wdName w, (vs.map toWd).map (fun x => Val.vBool (decide (x = w)))))⟩

/-- main.py lines 129-132. -/
def add_weekday_dummies (df : Frame) : Except String Frame :=
  match lookupCol df "日付" with
  | none => .error "KeyError"
  | some dvals =>
  match parseAll dvals with
  | none => .error "ParseError"
  | some ds =>
  .ok (get_dummies_y (setCol (setCol df "日付" (ds.map Val.vDate)) "曜日"
        (ds.map (fun d => Val.vInt (wd d)))))

def removeCommas (s : String) : String := String.mk (s.data.filter (fun c => ¬ (c = ',')))

/-- Modelled from `astype(float)` on one cell: parses a (comma-stripped) digit
string, keeps numerics, raises otherwise. -/
def parseFloat (s : String) : Option ℚ :=
  if s.data ≠ [] ∧ s.data.all Char.isDigit then some ((digitsToNat s : ℚ)) else none

def cleanVal : Val → Except String ℚ
  | .vStr s =>
    match parseFloat (removeCommas s) with
    | some q => .ok q
    | none => .error "ValueError"
  | .vRat q => .ok q
  | .vInt n => .ok ((n : ℚ))
  | .vBool b => .ok (if b then 1 else 0)
  | .vDate _ => .error "TypeError"

def cleanAll : List Val → Except String (List ℚ)
  | [] => .ok []
  | v :: vs =>
    match cleanVal v, cleanAll vs with
    | .ok q, .ok qs => .ok (q :: qs)
    | .error e, _ => .error e
    | .ok _, .error e => .error e

/-- main.py lines 32-33: `df[col].replace(",", "", regex=True).astype(float)`. -/
def clean_numeric_column (df : Frame) (col : String) : Except String (List ℚ) :=
  match lookupCol df col with
  | none => .error "KeyError"
  | some vs => cleanAll vs

/-- A trained per-group regressor: one prediction per feature row. -/
abbrev Model := List Bool → ℚ

/-- `LGBMRegressor().fit`: opaque; yields a `Model`. -/
abbrev Fit := List (List Bool) → List ℚ → Model

def toB : Val → Bool
  | .vBool b => b
  | _ => false

def toRat : Val → ℚ
  | .vRat q => q
  | .vInt n => (n : ℚ)
  | _ => 0

def maxD (l : List Int) : Int := l.foldl max (l.headD 0)

/-- Modelled from Python `round(x, 1)` (tie behaviour is irrelevant to the claims). -/
def round1 (q : ℚ) : ℚ := ((⌊q * 10 + 1 / 2⌋ : Int) : ℚ) / 10

/-- `groupby` row selection: the entries of `vs` on the rows whose key equals `k`. -/
def maskFilter {α : Type} (keys : List Val) (k : Val) (vs : List α) : List α :=
  ((keys.zip vs).filter (fun p => p.1 = k)).map Prod.snd

/-- main.py line 143: all weekday-indicator columns of the (whole) augmented table. -/
def tableWdCols (df : Frame) : List (String × List Val) :=
  df.cols.filter (fun c => isWdCol c.1)

/-- main.py line 143: `X = group[[c for c in group.columns if c.startswith("曜日_")]]`. -/
def groupXcols (df : Frame) (gvals : List Val) (k : Val) : List (String × List Bool) :=
  (tableWdCols df).map (fun c => (c.1, (maskFilter gvals k c.2).map toB))

def rowsOfB (cols : List (String × List Bool)) (n : Nat) : List (List Bool) :=
  (List.range n).map (fun i => cols.map (fun c => c.2.getD i false))

/-- main.py line 151: `pd.get_dummies(future_weekdays, prefix="曜日")` - one column
per distinct future weekday, ascending. -/
def futDummies (fw : List Int) : List (String × List Bool) :=
  (((List.range 7).map (fun n : Nat => (n : Int))).filter (fun w => decide (w ∈ fw))).map
    (fun w => (wdName w, fw.map (fun x => decide (x = w))))

/-- main.py lines 152-154: training columns missing from `future_df` are appended
filled with zero. -/
def filledFuture (Xnames : List String) (fw : List Int) : List (String × List Bool) :=
  futDummies fw ++
    (Xnames.filter (fun c => ((futDummies fw).find? (fun p => p.1 = c)).isNone)).map
      (fun c => (c, fw.map (fun _ => false)))

/-- main.py line 155: `future_df = future_df[X.columns]` - reindex to training order. -/
def alignFuture (Xnames : List String) (fw : List Int) : List (String × List Bool) :=
  Xnames.map (fun c =>
    (c, (((filledFuture Xnames fw).find? (fun p => p.1 = c)).map Prod.snd).getD
          (fw.map (fun _ => false))))

def futureRow (cols : List (String × List Bool)) (j : Nat) : List Bool :=
  cols.map (fun c => c.2.getD j false)

/-- main.py lines 142-158, the per-group body of the `groupby` loop.
`gvals.count k` is `len(X)`: the number of rows of the group. -/
def groupStep (df : Frame) (ds : List Int) (targets : List Int) (gvals : List Val)
    (fit : Fit) (periods : Nat) (k : Val) : Option (Val × List (Int × ℚ)) :=
  if gvals.count k < 10 then none
  else some (k, targets.zip
    (((List.range periods).map (fun j =>
      fit (rowsOfB (groupXcols df gvals k) (gvals.count k))
          ((maskFilter gvals k ((lookupCol df "販売金額").getD [])).map toRat)
          (futureRow
            (alignFuture ((groupXcols df gvals k).map Prod.fst)
              ((List.range periods).map (fun i : Nat =>
                (wd (maxD (maskFilter gvals k ds)) + (i : Int) + 1) % 7)))
            j))).map round1))

/-- main.py lines 135-160.  Group iteration order differs from pandas (which sorts
keys); the result is a mapping, so only membership matters to the claims. -/
def forecast (df0 : Frame) (gc : String) (fit : Fit) (periods : Nat) :
    Except String (List (Val × List (Int × ℚ))) :=
  match add_weekday_dummies df0 with
  | .error e => .error e
  | .ok dfA =>
  match clean_numeric_column dfA "販売金額" with
  | .error e => .error e
  | .ok sales =>
  match lookupCol (setCol dfA "販売金額" (sales.map Val.vRat)) "日付" with
  | none => .error "KeyError"
  | some dcol =>
  match parseAll dcol with
  | none => .error "ParseError"
  | some ds =>
  match lookupCol (setCol dfA "販売金額" (sales.map Val.vRat)) gc with
  | none => .error "KeyError"
  | some gvals =>
  .ok (gvals.dedup.filterMap
    (groupStep (setCol dfA "販売金額" (sales.map Val.vRat)) ds
      ((List.range periods).map (fun i : Nat => maxD ds + (i : Int) + 1)) gvals fit periods))

/-- The intermediate data of a successful `forecast` run: the processed frame, the
parsed date column, and the grouping column. -/
def forecastParts (df0 : Frame) (gc : String) : Option (Frame × List Int × List Val) :=
  match add_weekday_dummies df0 with
  | .error _ => none
  | .ok dfA =>
  match clean_numeric_column dfA "販売金額" with
  | .error _ => none
  | .ok sales =>
  match lookupCol (setCol dfA "販売金額" (sales.map Val.vRat)) "日付" with
  | none => none
  | some dcol =>
  match parseAll dcol with
  | none => none
  | some ds =>
  match lookupCol (setCol dfA "販売金額" (sales.map Val.vRat)) gc with
  | none => none
  | some gvals => some (setCol dfA "販売金額" (sales.map Val.vRat), ds, gvals)

/-- The parsed date column of the raw input table. -/
def tableDates (df : Frame) : Option (List Int) := (lookupCol df "日付").bind parseAll

/-- main.py line 197: `df.groupby("日付").agg({"販売金額": "sum"}).reset_index()`. -/
def aggByDate (df : Frame) : Except String Frame :=
  match lookupCol df "日付", lookupCol df "販売金額" with
  | some dvals, some svals =>
    .ok ⟨[("日付", dvals.dedup),
          ("販売金額", dvals.dedup.map (fun k =>
            Val.vRat (((maskFilter dvals k svals).map toRat).sum)))]⟩
  | _, _ => .error "KeyError"

/-- The `/predict` handler's outcome: either the full three-part forecast or a
single error payload. -/
inductive Response where
  | ok : List (Val × List (Int × ℚ)) → List (Val × List (Int × ℚ)) →
      List (Val × List (Int × ℚ)) → Response
  | err : String → Response
deriving DecidableEq

/-- main.py lines 188-206 (the CSV has already been read into a frame). -/
def predict_sales (df0 : Frame) (fit : Fit) : Response :=
  match clean_numeric_column df0 "販売金額" with
  | .error e => .err e
  | .ok sales =>
  match forecast (setCol df0 "販売金額" (sales.map Val.vRat)) "商品名" fit 7 with
  | .error e => .err e
  | .ok p =>
  match forecast (setCol df0 "販売金額" (sales.map Val.vRat)) "カテゴリ" fit 7 with
  | .error e => .err e
  | .ok c =>
  match aggByDate (setCol df0 "販売金額" (sales.map Val.vRat)) with
  | .error e => .err e
  | .ok agg =>
  match forecast agg "日付" fit 7 with
  | .error e => .err e
  | .ok d => .ok p c d

/-- The weekdays present in a parsed date column, ascending (the distinct values
`pd.get_dummies` encodes). -/
def wdList (ds : List Int) : List Int :=
  ((List.range 7).map (fun n : Nat => (n : Int))).filter (fun w => decide (w ∈ ds.map wd))

/-- The indicator block `get_dummies_y` appends for a parsed date column `ds`. -/
def dummyBlock (ds : List Int) : List (String × List Val) :=
  (wdList ds).map (fun w => (wdName w, ds.map (fun d => Val.vBool (decide (wd d = w)))))

/-- The original columns with the date column normalized in place. -/
def replDate (cols : List (String × List Val)) (ds : List Int) : List (String × List Val) :=
  cols.map (fun c => if c.1 = "日付" then ("日付", ds.map Val.vDate) else c)

/-- A constant regressor, used to instantiate the opaque `Fit` on witnesses. -/
def fit0 : Fit := fun _ _ => fun _ => 0

def witDf : Frame :=
  ⟨[("日付", [Val.vStr "0", Val.vStr "1", Val.vStr "2", Val.vStr "3", Val.vStr "4",
              Val.vStr "5", Val.vStr "6", Val.vStr "7", Val.vStr "8", Val.vStr "9"]),
    ("商品名", List.replicate 10 (Val.vStr "A")),
    ("販売金額", List.replicate 10 (Val.vStr "100"))]⟩

/-- The result of the witness run (a single group, `"A"`, with ten rows). -/
def witRes : List (Val × List (Int × ℚ)) :=
  (forecast witDf "商品名" fit0 7).toOption.getD []

/-- The group forecast of `"A"` in the witness run. -/
def witGf : List (Int × ℚ) := (witRes.headD (Val.vInt 0, [])).2

def cex5 : Frame := ⟨[("日付", [Val.vStr "0"])]⟩

def cex5out : Frame := ⟨[("日付", [Val.vDate 0]), ("曜日_0", [Val.vBool true])]⟩

def cex7out2 : Frame :=
  ⟨[("日付", [Val.vDate 0]), ("曜日_0", [Val.vBool true]), ("曜日_0", [Val.vBool true])]⟩

def cex9 : Frame := ⟨[("日付", [Val.vStr "0"]), ("曜日", [Val.vStr "x"])]⟩

def cex9out : Frame := ⟨[("日付", [Val.vDate 0]), ("曜日_0", [Val.vBool true])]⟩

def cex6g : List Val := List.replicate 10 (Val.vStr "A") ++ List.replicate 10 (Val.vStr "B")

def cex6ds : List Int := List.replicate 10 0 ++ List.replicate 10 1

def cex6 : Frame :=
  ⟨[("日付", List.replicate 10 (Val.vStr "0") ++ List.replicate 10 (Val.vStr "1")),
    ("g", cex6g),
    ("販売金額", List.replicate 20 (Val.vStr "1"))]⟩

def malDf : Frame := ⟨[("日付", [Val.vStr "bad"]), ("販売金額", [Val.vStr "1"])]⟩

def df10 : Frame := ⟨[("販売金額", [Val.vStr "1,234", Val.vStr "56"])]⟩

/-! ### Helper lemmas about the frame operations -/

lemma mem_names_of_lookup {df : Frame} {n : String} {vs : List Val}
    (h : lookupCol df n = some vs) : n ∈ names df := by
  unfold lookupCol at h
  cases hf : df.cols.find? (fun c => c.1 = n) with
  | none => rw [hf] at h; cases h
  | some a =>
    have ha : a.1 = n := by simpa using List.find?_some hf
    have hm : a.1 ∈ names df := List.mem_map_of_mem Prod.fst (List.mem_of_find?_eq_some hf)
    rwa [ha] at hm

lemma find_replaceAll {cols : List (String × List Val)} {n : String} {vs : List Val}
    (hmem : n ∈ cols.map Prod.fst) :
    (cols.map (fun c => if c.1 = n then (n, vs) else c)).find? (fun c => c.1 = n) =
      some (n, vs) := by
  induction cols with
  | nil => simp at hmem
  | cons c cs ih =>
    by_cases hc : c.1 = n
    · rw [List.map_cons, if_pos hc, List.find?_cons_of_pos _ (by simp)]
    · have hmem2 : n ∈ cs.map Prod.fst := by
        rw [List.map_cons, List.mem_cons] at hmem
        rcases hmem with h | h
        · exact absurd h.symm hc
        · exact h
      rw [List.map_cons, if_neg hc, List.find?_cons_of_neg _ (by simpa using hc), ih hmem2]

lemma find_map_ne {cols : List (String × List Val)} {n m : String} {vs : List Val}
    (hnm : ¬ (n = m)) :
    (cols.map (fun c => if c.1 = m then (m, vs) else c)).find? (fun c => c.1 = n) =
      cols.find? (fun c => c.1 = n) := by
  have hmn : ¬ (m = n) := fun hh => hnm hh.symm
  induction cols with
  | nil => rfl
  | cons c cs ih =>
    by_cases hc : c.1 = m
    · have hcn : ¬ (c.1 = n) := by rw [hc]; exact hmn
      rw [List.map_cons, if_pos hc, List.find?_cons_of_neg _ (by simpa using hmn),
        List.find?_cons_of_neg _ (by simpa using hcn), ih]
    · rw [List.map_cons, if_neg hc]
      by_cases hn : c.1 = n
      · rw [List.find?_cons_of_pos _ (by simpa using hn),
          List.find?_cons_of_pos _ (by simpa using hn)]
      · rw [List.find?_cons_of_neg _ (by simpa using hn),
          List.find?_cons_of_neg _ (by simpa using hn), ih]

lemma lookupCol_setCol_self (df : Frame) (n : String) (vs : List Val) :
    lookupCol (setCol df n vs) n = some vs := by
  unfold setCol
  by_cases hmem : n ∈ names df
  · rw [if_pos hmem]
    unfold lookupCol
    rw [find_replaceAll hmem]
    rfl
  · rw [if_neg hmem]
    unfold lookupCol
    rw [List.find?_append]
    have h0 : df.cols.find? (fun c => c.1 = n) = none := by
      refine List.find?_eq_none.mpr (fun x hx hpx => ?_)
      exact hmem (by
        have : x.1 = n := by simpa using hpx
        exact this ▸ List.mem_map_of_mem Prod.fst hx)
    rw [h0]
    simp [List.find?]

lemma lookupCol_setCol_ne (df : Frame) {n m : String} (h : ¬ (n = m)) (vs : List Val) :
    lookupCol (setCol df m vs) n = lookupCol df n := by
  unfold setCol
  by_cases hmem : m ∈ names df
  · rw [if_pos hmem]
    unfold lookupCol
    rw [find_map_ne h]
  · rw [if_neg hmem]
    unfold lookupCol
    rw [List.find?_append]
    have hmn : ¬ (m = n) := fun hh => h hh.symm
    have h1 : List.find? (fun c => c.1 = n) [(m, vs)] = none := by
      simp [List.find?, hmn]
    rw [h1, Option.or_none]

lemma names_setCol_mem {df : Frame} {n : String} {vs : List Val} (h : n ∈ names df) :
    names (setCol df n vs) = names df := by
  unfold setCol
  rw [if_pos h]
  unfold names
  rw [List.map_map]
  refine List.map_congr_left (fun c _ => ?_)
  by_cases hc : c.1 = n
  · simp [hc]
  · simp [hc]

lemma find_filter_yo {cols : List (String × List Val)} {n : String} (h : ¬ (n = "曜日")) :
    (cols.filter (fun c => ¬ (c.1 = "曜日"))).find? (fun c => c.1 = n) =
      cols.find? (fun c => c.1 = n) := by
  induction cols with
  | nil => rfl
  | cons c cs ih =>
    by_cases hc : c.1 = "曜日"
    · have hcn : ¬ (c.1 = n) := by rw [hc]; exact fun hh => h hh.symm
      rw [List.filter_cons_of_neg (by simpa using hc),
        List.find?_cons_of_neg _ (by simpa using hcn), ih]
    · rw [List.filter_cons_of_pos (by simpa using hc)]
      by_cases hn : c.1 = n
      · rw [List.find?_cons_of_pos _ (by simpa using hn),
          List.find?_cons_of_pos _ (by simpa using hn)]
      · rw [List.find?_cons_of_neg _ (by simpa using hn),
          List.find?_cons_of_neg _ (by simpa using hn), ih]

lemma lookup_get_dummies {df2 : Frame} {n : String} {vs : List Val}
    (hn : ¬ (n = "曜日")) (h : lookupCol df2 n = some vs) :
    lookupCol (get_dummies_y df2) n = some vs := by
  unfold get_dummies_y
  cases hy : lookupCol df2 "曜日" with
  | none => exact h
  | some ys =>
    unfold lookupCol at h ⊢
    rw [List.find?_append, find_filter_yo hn]
    cases hf : df2.cols.find? (fun c => c.1 = n) with
    | none => rw [hf] at h; cases h
    | some a =>
      rw [hf] at h
      simpa using h

/-! ### Helper lemmas about parsing and cleaning -/

lemma parseAll_map_vDate (l : List Int) : parseAll (l.map Val.vDate) = some l := by
  induction l with
  | nil => rfl
  | cons d ds ih => simp [parseAll, parseDate, ih]

lemma parseAll_length {vs : List Val} {ds : List Int} (h : parseAll vs = some ds) :
    ds.length = vs.length := by
  induction vs generalizing ds with
  | nil => cases h; rfl
  | cons v vt ih =>
    unfold parseAll at h
    cases hv : parseDate v with
    | none => rw [hv] at h; cases h
    | some d =>
      rw [hv] at h
      cases ht : parseAll vt with
      | none => rw [ht] at h; cases h
      | some dt =>
        rw [ht] at h
        cases h
        simp [ih ht]

lemma parseAll_none {vs : List Val} {v : Val} (hv : v ∈ vs) (h : parseDate v = none) :
    parseAll vs = none := by
  induction vs with
  | nil => cases hv
  | cons a t ih =>
    rcases List.mem_cons.mp hv with rfl | hm
    · unfold parseAll
      rw [h]
    · unfold parseAll
      cases ha : parseDate a with
      | none => rfl
      | some d => rw [ih hm]

lemma cleanAll_map_vRat (l : List ℚ) : cleanAll (l.map Val.vRat) = .ok l := by
  induction l with
  | nil => rfl
  | cons q qs ih => simp [cleanAll, cleanVal, ih]

/-- The numeric-looking-text hypothesis of C10: a nonempty digit string, possibly
with comma separators. -/
def digitsComma (v : Val) : Prop :=
  ∃ s, v = Val.vStr s ∧ (∀ ch ∈ s.data, ch.isDigit = true ∨ ch = ',') ∧
    ∃ ch ∈ s.data, ch.isDigit = true

lemma cleanVal_of_digitsComma {v : Val} (h : digitsComma v) : ∃ q, cleanVal v = .ok q := by
  obtain ⟨s, rfl, hall, ch, hch, hd⟩ := h
  have hne : ¬ (ch = ',') := by
    intro hc
    rw [hc] at hd
    exact absurd hd (by decide)
  have hmem : ch ∈ (removeCommas s).data := by
    unfold removeCommas
    exact List.mem_filter.mpr ⟨hch, by simpa using hne⟩
  have hcond : (removeCommas s).data ≠ [] ∧ (removeCommas s).data.all Char.isDigit = true := by
    constructor
    · exact List.ne_nil_of_mem hmem
    · refine List.all_eq_true.mpr (fun c hc => ?_)
      have hc3 : c ∈ s.data ∧ ¬ (c = ',') := by
        simpa [removeCommas, List.mem_filter] using hc
      rcases hall c hc3.1 with hdig | hcomma
      · exact hdig
      · exact absurd hcomma hc3.2
  refine ⟨(digitsToNat (removeCommas s) : ℚ), ?_⟩
  simp [cleanVal, parseFloat, hcond.1, hcond.2]

lemma cleanAll_of_digitsComma {vs : List Val} (h : ∀ v ∈ vs, digitsComma v) :
    ∃ qs, cleanAll vs = .ok qs := by
  induction vs with
  | nil => exact ⟨[], rfl⟩
  | cons v t ih =>
    obtain ⟨q, hq⟩ := cleanVal_of_digitsComma (h v (by simp))
    obtain ⟨qs, hqs⟩ := ih (fun x hx => h x (by simp [hx]))
    exact ⟨q :: qs, by unfold cleanAll; rw [hq, hqs]⟩

/-! ### Structure of add_weekday_dummies -/

lemma names_replDate (cols : List (String × List Val)) (ds : List Int) :
    (replDate cols ds).map Prod.fst = cols.map Prod.fst := by
  unfold replDate
  rw [List.map_map]
  refine List.map_congr_left (fun c _ => ?_)
  by_cases hc : c.1 = "日付" <;> simp [hc]

lemma replDate_eq_setCol (df : Frame) (ds : List Int) (h : "日付" ∈ names df) :
    setCol df "日付" (ds.map Val.vDate) = ⟨replDate df.cols ds⟩ := by
  unfold setCol replDate
  rw [if_pos h]

lemma toWd_comp (ds : List Int) :
    (ds.map (fun d => Val.vInt (wd d))).map toWd = ds.map wd := by
  rw [List.map_map]
  rfl

lemma get_dummies_struct (df2 : Frame) (ds : List Int)
    (hy : lookupCol df2 "曜日" = some (ds.map (fun d => Val.vInt (wd d)))) :
    get_dummies_y df2 = ⟨df2.cols.filter (fun c => ¬ (c.1 = "曜日")) ++ dummyBlock ds⟩ := by
  simp only [get_dummies_y, hy, toWd_comp]
  congr 1
  unfold dummyBlock wdList
  simp only [List.map_map]
  rfl

lemma add_ok_struct {df0 : Frame} {dvals : List Val} {ds : List Int}
    (h1 : lookupCol df0 "日付" = some dvals)
    (h2 : parseAll dvals = some ds)
    (hyo : ¬ ("曜日" ∈ names df0)) :
    add_weekday_dummies df0 = .ok ⟨replDate df0.cols ds ++ dummyBlock ds⟩ := by
  have hdm : "日付" ∈ names df0 := mem_names_of_lookup h1
  simp only [add_weekday_dummies, h1, h2]
  rw [replDate_eq_setCol df0 ds hdm]
  have hyo1 : ¬ ("曜日" ∈ names (⟨replDate df0.cols ds⟩ : Frame)) := by
    unfold names at hyo ⊢
    rwa [names_replDate]
  have hset : setCol ⟨replDate df0.cols ds⟩ "曜日" (ds.map (fun d => Val.vInt (wd d))) =
      ⟨replDate df0.cols ds ++ [("曜日", ds.map (fun d => Val.vInt (wd d)))]⟩ := by
    unfold setCol
    rw [if_neg hyo1]
  rw [hset]
  rw [get_dummies_struct _ ds (by
    have := lookupCol_setCol_self ⟨replDate df0.cols ds⟩ "曜日" (ds.map (fun d => Val.vInt (wd d)))
    rwa [hset] at this)]
  congr 2
  rw [List.filter_append]
  have hfl : (replDate df0.cols ds).filter (fun c => ¬ (c.1 = "曜日")) = replDate df0.cols ds := by
    refine List.filter_eq_self.mpr (fun c hc => ?_)
    have hcn : c.1 ∈ names df0 := by
      have := List.mem_map_of_mem Prod.fst hc
      rwa [names_replDate] at this
    have : ¬ (c.1 = "曜日") := fun hh => hyo (hh ▸ hcn)
    simpa using this
  have hfr : List.filter (fun c => ¬ (c.1 = "曜日"))
      [("曜日", ds.map (fun d => Val.vInt (wd d)))] = [] := by
    simp [List.filter]
  rw [hfl, hfr, List.append_nil]

lemma add_ok_elim {df0 dfA : Frame} (h : add_weekday_dummies df0 = .ok dfA) :
    ∃ dvals ds, lookupCol df0 "日付" = some dvals ∧ parseAll dvals = some ds ∧
      dfA = get_dummies_y (setCol (setCol df0 "日付" (ds.map Val.vDate)) "曜日"
        (ds.map (fun d => Val.vInt (wd d)))) := by
  unfold add_weekday_dummies at h
  cases h1 : lookupCol df0 "日付" with
  | none => rw [h1] at h; cases h
  | some dvals =>
    simp only [h1] at h
    cases h2 : parseAll dvals with
    | none => rw [h2] at h; cases h
    | some ds =>
      simp only [h2] at h
      exact ⟨dvals, ds, rfl, h2, (Except.ok.inj h).symm⟩

lemma lookup_date_add {df0 dfA : Frame} (h : add_weekday_dummies df0 = .ok dfA) :
    ∃ dvals ds, lookupCol df0 "日付" = some dvals ∧ parseAll dvals = some ds ∧
      lookupCol dfA "日付" = some (ds.map Val.vDate) := by
  obtain ⟨dvals, ds, h1, h2, rfl⟩ := add_ok_elim h
  refine ⟨dvals, ds, h1, h2, ?_⟩
  have hd2 : lookupCol (setCol (setCol df0 "日付" (ds.map Val.vDate)) "曜日"
      (ds.map (fun d => Val.vInt (wd d)))) "日付" = some (ds.map Val.vDate) := by
    rw [lookupCol_setCol_ne _ (by decide), lookupCol_setCol_self]
  exact lookup_get_dummies (by decide) hd2

/-! ### Elimination lemmas for forecast -/

lemma parts_elim {df0 : Frame} {gc : String} {df : Frame} {ds : List Int} {gvals : List Val}
    (h : forecastParts df0 gc = some (df, ds, gvals)) :
    ∃ dfA sales dcol,
      add_weekday_dummies df0 = .ok dfA ∧
      clean_numeric_column dfA "販売金額" = .ok sales ∧
      df = setCol dfA "販売金額" (sales.map Val.vRat) ∧
      lookupCol df "日付" = some dcol ∧ parseAll dcol = some ds ∧
      lookupCol df gc = some gvals := by
  unfold forecastParts at h
  cases hA : add_weekday_dummies df0 with
  | error e => rw [hA] at h; cases h
  | ok dfA =>
    simp only [hA] at h
    cases hc : clean_numeric_column dfA "販売金額" with
    | error e => rw [hc] at h; cases h
    | ok sales =>
      simp only [hc] at h
      cases hd : lookupCol (setCol dfA "販売金額" (sales.map Val.vRat)) "日付" with
      | none => rw [hd] at h; cases h
      | some dcol =>
        simp only [hd] at h
        cases hp : parseAll dcol with
        | none => rw [hp] at h; cases h
        | some ds2 =>
          simp only [hp] at h
          cases hg : lookupCol (setCol dfA "販売金額" (sales.map Val.vRat)) gc with
          | none => rw [hg] at h; cases h
          | some gvals2 =>
            simp only [hg, Option.some.injEq, Prod.mk.injEq] at h
            obtain ⟨hdf, hds, hgv⟩ := h
            subst hdf hds hgv
            exact ⟨dfA, sales, dcol, rfl, hc, rfl, hd, hp, hg⟩

lemma forecast_ok_parts {df0 : Frame} {gc : String} {fit : Fit} {periods : Nat}
    {res : List (Val × List (Int × ℚ))}
    (h : forecast df0 gc fit periods = .ok res) :
    ∃ df ds gvals, forecastParts df0 gc = some (df, ds, gvals) ∧
      res = gvals.dedup.filterMap
        (groupStep df ds ((List.range periods).map (fun i : Nat => maxD ds + (i : Int) + 1))
          gvals fit periods) := by
  unfold forecast at h
  unfold forecastParts
  cases hA : add_weekday_dummies df0 with
  | error e => rw [hA] at h; cases h
  | ok dfA =>
    simp only [hA] at h ⊢
    cases hc : clean_numeric_column dfA "販売金額" with
    | error e => rw [hc] at h; cases h
    | ok sales =>
      simp only [hc] at h ⊢
      cases hd : lookupCol (setCol dfA "販売金額" (sales.map Val.vRat)) "日付" with
      | none => rw [hd] at h; cases h
      | some dcol =>
        simp only [hd] at h ⊢
        cases hp : parseAll dcol with
        | none => rw [hp] at h; cases h
        | some ds =>
          simp only [hp] at h ⊢
          cases hg : lookupCol (setCol dfA "販売金額" (sales.map Val.vRat)) gc with
          | none => rw [hg] at h; cases h
          | some gvals =>
            simp only [hg] at h ⊢
            exact ⟨_, _, _, rfl, (Except.ok.inj h).symm⟩

lemma groupStep_some {df : Frame} {ds targets : List Int} {gvals : List Val} {fit : Fit}
    {periods : Nat} {a k : Val} {gf : List (Int × ℚ)}
    (h : groupStep df ds targets gvals fit periods a = some (k, gf)) :
    a = k ∧ ¬ (gvals.count a < 10) ∧
      gf = targets.zip
        (((List.range periods).map (fun j =>
          fit (rowsOfB (groupXcols df gvals a) (gvals.count a))
              ((maskFilter gvals a ((lookupCol df "販売金額").getD [])).map toRat)
              (futureRow
                (alignFuture ((groupXcols df gvals a).map Prod.fst)
                  ((List.range periods).map (fun i : Nat =>
                    (wd (maxD (maskFilter gvals a ds)) + (i : Int) + 1) % 7)))
                j))).map round1) := by
  unfold groupStep at h
  split at h
  case isTrue hlt => cases h
  case isFalse hlt =>
    simp only [Option.some.injEq, Prod.mk.injEq] at h
    exact ⟨h.1, hlt, h.2.symm⟩

lemma tableDates_of_parts {df0 : Frame} {gc : String} {df : Frame} {ds : List Int}
    {gvals : List Val} (h : forecastParts df0 gc = some (df, ds, gvals)) :
    tableDates df0 = some ds := by
  obtain ⟨dfA, sales, dcol, hA, _, hdf, hd, hp, _⟩ := parts_elim h
  obtain ⟨dvals, ds0, h1, h2, hda⟩ := lookup_date_add hA
  have hl : lookupCol df "日付" = some (ds0.map Val.vDate) := by
    rw [hdf, lookupCol_setCol_ne _ (by decide)]
    exact hda
  rw [hl] at hd
  cases hd
  rw [parseAll_map_vDate] at hp
  cases hp
  unfold tableDates
  rw [h1]
  simpa using h2

/-! ### Claim theorems -/

/-- Claim C1: for every input table and every group that receives a forecast, the
group's forecast has exactly `periods` entries, keyed by `periods` strictly
consecutive calendar days starting the day after the maximum date of the ENTIRE
input table, so all groups in one call share the same target dates (the key list
`(List.range periods).map (fun i => maxD ds + i + 1)` does not depend on the
group `k`). -/
theorem C1_forecast_consecutive_global_dates
    (df0 : Frame) (gc : String) (fit : Fit) (periods : Nat)
    (res : List (Val × List (Int × ℚ))) (k : Val) (gf : List (Int × ℚ))
    (h : forecast df0 gc fit periods = .ok res) (hm : (k, gf) ∈ res) :
    ∃ ds, tableDates df0 = some ds ∧
      gf.map Prod.fst = (List.range periods).map (fun i : Nat => maxD ds + (i : Int) + 1) ∧
      gf.length = periods := by
  obtain ⟨df, ds, gvals, hp, rfl⟩ := forecast_ok_parts h
  obtain ⟨a, _, hstep⟩ := List.mem_filterMap.mp hm
  obtain ⟨rfl, _, hgf⟩ := groupStep_some hstep
  refine ⟨ds, tableDates_of_parts hp, ?_, ?_⟩
  · rw [hgf]
    apply List.map_fst_zip
    simp
  · rw [hgf, List.length_zip]
    simp

/-- Witness for C1: a ten-row table for one product, dates 0..9, horizon 7. -/
theorem C1_witness :
    ∃ ds, tableDates witDf = some ds ∧
      witGf.map Prod.fst = (List.range 7).map (fun i : Nat => maxD ds + (i : Int) + 1) ∧
      witGf.length = 7 := by
  have hm : (Val.vStr "A", witGf) ∈ witRes := by
    rw [show witRes = [(Val.vStr "A", witGf)] from rfl]
    exact List.mem_singleton_self _
  exact C1_forecast_consecutive_global_dates witDf "商品名" fit0 7 witRes (Val.vStr "A") witGf
    rfl hm

/-- Claim C2: a group key appears in the forecast result iff the grouping column
holds it and its row count is at least 10; smaller groups are silently skipped
(the call still returns `.ok`). -/
theorem C2_group_size_threshold
    (df0 : Frame) (gc : String) (fit : Fit) (periods : Nat)
    (res : List (Val × List (Int × ℚ)))
    (h : forecast df0 gc fit periods = .ok res) :
    ∃ df ds gvals, forecastParts df0 gc = some (df, ds, gvals) ∧
      ∀ k : Val, (∃ gf, (k, gf) ∈ res) ↔ (k ∈ gvals ∧ 10 ≤ gvals.count k) := by
  obtain ⟨df, ds, gvals, hp, rfl⟩ := forecast_ok_parts h
  refine ⟨df, ds, gvals, hp, fun k => ⟨?_, ?_⟩⟩
  · rintro ⟨gf, hm⟩
    obtain ⟨a, ha, hstep⟩ := List.mem_filterMap.mp hm
    obtain ⟨rfl, hlt, _⟩ := groupStep_some hstep
    exact ⟨List.mem_dedup.mp ha, Nat.not_lt.mp hlt⟩
  · rintro ⟨hk, hc⟩
    have hex : ∃ gf, groupStep df ds
        ((List.range periods).map (fun i : Nat => maxD ds + (i : Int) + 1)) gvals fit periods k =
          some (k, gf) := by
      unfold groupStep
      rw [if_neg (Nat.not_lt.mpr hc)]
      exact ⟨_, rfl⟩
    obtain ⟨gf, hstep⟩ := hex
    exact ⟨gf, List.mem_filterMap.mpr ⟨k, List.mem_dedup.mpr hk, hstep⟩⟩

/-- Witness for C2. -/
theorem C2_witness :
    ∃ df ds gvals, forecastParts witDf "商品名" = some (df, ds, gvals) ∧
      ∀ k : Val, (∃ gf, (k, gf) ∈ witRes) ↔ (k ∈ gvals ∧ 10 ≤ gvals.count k) :=
  C2_group_size_threshold witDf "商品名" fit0 7 witRes rfl

/-- Claim C4: the predictions recorded for a group are exactly the (rounded)
model outputs on the aligned one-hot encodings of the future weekday indices
`(last_weekday + i + 1) % 7`, `i < periods`, where `last_weekday` is the weekday
of that group's own maximum observed date. -/
theorem C4_future_weekday_sequence
    (df0 : Frame) (gc : String) (fit : Fit) (periods : Nat)
    (res : List (Val × List (Int × ℚ))) (k : Val) (gf : List (Int × ℚ))
    (h : forecast df0 gc fit periods = .ok res) (hm : (k, gf) ∈ res) :
    ∃ df ds gvals, forecastParts df0 gc = some (df, ds, gvals) ∧
      gf.map Prod.snd = (List.range periods).map (fun j =>
        round1 (fit (rowsOfB (groupXcols df gvals k) (gvals.count k))
          ((maskFilter gvals k ((lookupCol df "販売金額").getD [])).map toRat)
          (futureRow
            (alignFuture ((groupXcols df gvals k).map Prod.fst)
              ((List.range periods).map (fun i : Nat =>
                (wd (maxD (maskFilter gvals k ds)) + (i : Int) + 1) % 7)))
            j))) := by
  obtain ⟨df, ds, gvals, hp, rfl⟩ := forecast_ok_parts h
  obtain ⟨a, _, hstep⟩ := List.mem_filterMap.mp hm
  obtain ⟨rfl, _, hgf⟩ := groupStep_some hstep
  refine ⟨df, ds, gvals, hp, ?_⟩
  rw [hgf, List.map_snd_zip _ _ (by simp), List.map_map]
  rfl

/-- Witness for C4. -/
theorem C4_witness :
    ∃ df ds gvals, forecastParts witDf "商品名" = some (df, ds, gvals) ∧
      witGf.map Prod.snd = (List.range 7).map (fun j =>
        round1 (fit0 (rowsOfB (groupXcols df gvals (Val.vStr "A"))
            (gvals.count (Val.vStr "A")))
          ((maskFilter gvals (Val.vStr "A") ((lookupCol df "販売金額").getD [])).map toRat)
          (futureRow
            (alignFuture ((groupXcols df gvals (Val.vStr "A")).map Prod.fst)
              ((List.range 7).map (fun i : Nat =>
                (wd (maxD (maskFilter gvals (Val.vStr "A") ds)) + (i : Int) + 1) % 7)))
            j))) := by
  have hm : (Val.vStr "A", witGf) ∈ witRes := by
    rw [show witRes = [(Val.vStr "A", witGf)] from rfl]
    exact List.mem_singleton_self _
  exact C4_future_weekday_sequence witDf "商品名" fit0 7 witRes (Val.vStr "A") witGf rfl hm

lemma find_map_pair {l : List String} {c : String} (v : String → List Bool) (hc : c ∈ l) :
    (l.map (fun x => (x, v x))).find? (fun p => p.1 = c) = some (c, v c) := by
  induction l with
  | nil => cases hc
  | cons a t ih =>
    by_cases ha : a = c
    · subst ha
      rw [List.map_cons, List.find?_cons_of_pos _ (by simp)]
    · have hct : c ∈ t := by
        rcases List.mem_cons.mp hc with h | h
        · exact absurd h.symm ha
        · exact h
      rw [List.map_cons, List.find?_cons_of_neg _ (by simpa using ha), ih hct]

/-- Claim C3: at prediction time the projected feature frame is reordered to
exactly the training column order, and any training column absent from the
generated future dummies is filled with an all-zero column. -/
theorem C3_future_alignment (Xnames : List String) (fw : List Int) :
    (alignFuture Xnames fw).map Prod.fst = Xnames ∧
    ∀ c ∈ Xnames, ((futDummies fw).find? (fun p => p.1 = c)) = none →
      (alignFuture Xnames fw).find? (fun p => p.1 = c) =
        some (c, fw.map (fun _ => false)) := by
  constructor
  · unfold alignFuture
    rw [List.map_map]
    exact (List.map_congr_left (fun a _ => rfl)).trans (List.map_id Xnames)
  · intro c hc hnone
    unfold alignFuture
    rw [find_map_pair _ hc]
    have hfill : (filledFuture Xnames fw).find? (fun p => p.1 = c) =
        some (c, fw.map (fun _ => false)) := by
      unfold filledFuture
      rw [List.find?_append, hnone, Option.none_or]
      have hcf : c ∈ Xnames.filter
          (fun c => ((futDummies fw).find? (fun p => p.1 = c)).isNone) := by
        refine List.mem_filter.mpr ⟨hc, ?_⟩
        rw [hnone]
        rfl
      exact find_map_pair _ hcf
    simp [hfill]

/-- Witness for C3: training columns `曜日_0, 曜日_3`, one future Monday; `曜日_3`
is missing from the future dummies and comes back zero-filled, in order. -/
theorem C3_witness :
    (alignFuture ["曜日_0", "曜日_3"] [0]).map Prod.fst = ["曜日_0", "曜日_3"] ∧
    (alignFuture ["曜日_0", "曜日_3"] [0]).find? (fun p => p.1 = "曜日_3") =
      some ("曜日_3", [false]) := by
  refine ⟨(C3_future_alignment ["曜日_0", "曜日_3"] [0]).1, ?_⟩
  have h := (C3_future_alignment ["曜日_0", "曜日_3"] [0]).2 "曜日_3" (by decide) (by decide)
  simpa using h

lemma forecast_err_of_add {df0 : Frame} {gc : String} {fit : Fit} {periods : Nat} {e : String}
    (h : add_weekday_dummies df0 = .error e) :
    forecast df0 gc fit periods = .error e := by
  simp only [forecast, h]

lemma add_err_parse {df : Frame} {dvals : List Val}
    (h1 : lookupCol df "日付" = some dvals) (h2 : parseAll dvals = none) :
    add_weekday_dummies df = .error "ParseError" := by
  simp only [add_weekday_dummies, h1, h2]

/-- Claim C8: the `/predict` handler either fails as a whole with one error
payload, or returns the full three-part forecast (no partial success); in
particular a malformed date string in the date column makes the whole request
fail. -/
theorem C8_no_partial_result (df0 : Frame) (fit : Fit) :
    ((∃ e, predict_sales df0 fit = Response.err e) ∨
      (∃ sales p c d agg,
        clean_numeric_column df0 "販売金額" = .ok sales ∧
        forecast (setCol df0 "販売金額" (sales.map Val.vRat)) "商品名" fit 7 = .ok p ∧
        forecast (setCol df0 "販売金額" (sales.map Val.vRat)) "カテゴリ" fit 7 = .ok c ∧
        aggByDate (setCol df0 "販売金額" (sales.map Val.vRat)) = .ok agg ∧
        forecast agg "日付" fit 7 = .ok d ∧
        predict_sales df0 fit = Response.ok p c d)) ∧
    (∀ dvals v, lookupCol df0 "日付" = some dvals → v ∈ dvals → parseDate v = none →
      ∃ e, predict_sales df0 fit = Response.err e) := by
  constructor
  · cases hc : clean_numeric_column df0 "販売金額" with
    | error e => exact Or.inl ⟨e, by simp only [predict_sales, hc]⟩
    | ok sales =>
      cases hp : forecast (setCol df0 "販売金額" (sales.map Val.vRat)) "商品名" fit 7 with
      | error e => exact Or.inl ⟨e, by simp only [predict_sales, hc, hp]⟩
      | ok p =>
        cases hq : forecast (setCol df0 "販売金額" (sales.map Val.vRat)) "カテゴリ" fit 7 with
        | error e => exact Or.inl ⟨e, by simp only [predict_sales, hc, hp, hq]⟩
        | ok c =>
          cases ha : aggByDate (setCol df0 "販売金額" (sales.map Val.vRat)) with
          | error e => exact Or.inl ⟨e, by simp only [predict_sales, hc, hp, hq, ha]⟩
          | ok agg =>
            cases hd : forecast agg "日付" fit 7 with
            | error e => exact Or.inl ⟨e, by simp only [predict_sales, hc, hp, hq, ha, hd]⟩
            | ok d =>
              exact Or.inr ⟨sales, p, c, d, agg, rfl, hp, hq, ha, hd,
                by simp only [predict_sales, hc, hp, hq, ha, hd]⟩
  · intro dvals v h1 hv hp
    cases hc : clean_numeric_column df0 "販売金額" with
    | error e => exact ⟨e, by simp only [predict_sales, hc]⟩
    | ok sales =>
      have hl : lookupCol (setCol df0 "販売金額" (sales.map Val.vRat)) "日付" = some dvals := by
        rw [lookupCol_setCol_ne _ (by decide)]
        exact h1
      have hadd := add_err_parse hl (parseAll_none hv hp)
      have hf : forecast (setCol df0 "販売金額" (sales.map Val.vRat)) "商品名" fit 7 =
          .error "ParseError" := forecast_err_of_add hadd
      exact ⟨"ParseError", by simp only [predict_sales, hc, hf]⟩

/-- Witness for C8: a table whose date column holds the unparseable string
`"bad"` makes the whole request fail. -/
theorem C8_witness : ∃ e, predict_sales malDf fit0 = Response.err e :=
  (C8_no_partial_result malDf fit0).2 [Val.vStr "bad"] (Val.vStr "bad") (by decide)
    (by decide) (by decide)

/-- Claim C10: cleaning a column of numeric-looking text (digits with optional
comma thousands separators) succeeds, and cleaning the already-cleaned column
again returns the same values, so the double clean in `/predict` + `forecast`
is harmless. -/
theorem C10_clean_idempotent (df : Frame) (vs : List Val)
    (h : lookupCol df "販売金額" = some vs)
    (hnum : ∀ v ∈ vs, digitsComma v) :
    ∃ qs, clean_numeric_column df "販売金額" = .ok qs ∧
      clean_numeric_column (setCol df "販売金額" (qs.map Val.vRat)) "販売金額" = .ok qs := by
  obtain ⟨qs, hqs⟩ := cleanAll_of_digitsComma hnum
  refine ⟨qs, ?_, ?_⟩
  · simp only [clean_numeric_column, h]
    exact hqs
  · simp only [clean_numeric_column, lookupCol_setCol_self]
    exact cleanAll_map_vRat qs

/-- Witness for C10. -/
theorem C10_witness :
    ∃ qs, clean_numeric_column df10 "販売金額" = .ok qs ∧
      clean_numeric_column (setCol df10 "販売金額" (qs.map Val.vRat)) "販売金額" = .ok qs := by
  refine C10_clean_idempotent df10 [Val.vStr "1,234", Val.vStr "56"] (by decide) ?_
  intro v hv
  rcases List.mem_cons.mp hv with rfl | hv2
  · exact ⟨"1,234", rfl, by decide, ⟨'1', by decide, by decide⟩⟩
  · rcases List.mem_cons.mp hv2 with rfl | hv3
    · exact ⟨"56", rfl, by decide, ⟨'5', by decide, by decide⟩⟩
    · cases hv3

/-! ### Helper lemmas for the corrected claims -/

lemma isWdCol_wdName (w : Int) : isWdCol (wdName w) = true := by
  unfold isWdCol wdName
  rw [String.data_append, show (3 : Nat) = "曜日_".data.length from rfl, List.take_left]
  simp

lemma wdName_ne_yo (w : Int) : ¬ (wdName w = "曜日") := by
  intro h
  have hd : "曜日_".data ++ (toString w).data = "曜日".data := by
    have h2 := String.ext_iff.mp h
    simp only [wdName, String.data_append] at h2
    exact h2
  have hlen := congrArg List.length hd
  rw [List.length_append, show "曜日_".data.length = 3 from rfl,
    show "曜日".data.length = 2 from rfl] at hlen
  omega

lemma wdName_ne_date (w : Int) : ¬ (wdName w = "日付") := by
  intro h
  have hd : "曜日_".data ++ (toString w).data = "日付".data := by
    have h2 := String.ext_iff.mp h
    simp only [wdName, String.data_append] at h2
    exact h2
  have hlen := congrArg List.length hd
  rw [List.length_append, show "曜日_".data.length = 3 from rfl,
    show "日付".data.length = 2 from rfl] at hlen
  omega

lemma getD_map {α β : Type} {l : List α} {i : Nat} (h : i < l.length) (f : α → β)
    (dflt : β) (d0 : α) : (l.map f).getD i dflt = f (l.getD i d0) := by
  induction l generalizing i with
  | nil => simp at h
  | cons a t ih =>
    cases i with
    | zero => rfl
    | succ j => exact ih (Nat.lt_of_succ_lt_succ (by simpa using h))

lemma getD_mem {α : Type} {l : List α} {i : Nat} (h : i < l.length) (d : α) :
    l.getD i d ∈ l := by
  induction l generalizing i with
  | nil => simp at h
  | cons a t ih =>
    cases i with
    | zero => exact List.mem_cons_self a t
    | succ j => exact List.mem_cons_of_mem a (ih (Nat.lt_of_succ_lt_succ (by simpa using h)))

lemma countP_eq_one_of_nodup_mem {l : List Int} {a : Int} (hnd : l.Nodup) (ha : a ∈ l) :
    l.countP (fun w => decide (a = w)) = 1 := by
  induction l with
  | nil => cases ha
  | cons b t ih =>
    by_cases heq : a = b
    · rw [List.countP_cons_of_pos _ _ (by simp [heq])]
      have hbt : b ∉ t := (List.nodup_cons.mp hnd).1
      have hz : t.countP (fun w => decide (a = w)) = 0 := by
        refine List.countP_eq_zero.mpr (fun x hx => ?_)
        simp only [decide_eq_true_eq]
        intro hxa
        have hxb : x = b := by rw [← hxa, heq]
        exact hbt (hxb ▸ hx)
      rw [hz]
    · have hat : a ∈ t := by
        rcases List.mem_cons.mp ha with h | h
        · exact absurd h heq
        · exact h
      rw [List.countP_cons_of_neg _ _ (by simpa using heq)]
      exact ih (List.nodup_cons.mp hnd).2 hat

lemma wd_mem_wdList {ds : List Int} {d : Int} (hd : d ∈ ds) : wd d ∈ wdList ds := by
  unfold wdList
  refine List.mem_filter.mpr ⟨?_, ?_⟩
  · refine List.mem_map.mpr ⟨(wd d).toNat, List.mem_range.mpr ?_, ?_⟩
    · have h0 : 0 ≤ wd d := Int.emod_nonneg d (by norm_num)
      have h7 : wd d < 7 := Int.emod_lt_of_pos d (by norm_num)
      exact (Int.toNat_lt h0).mpr h7
    · exact Int.toNat_of_nonneg (Int.emod_nonneg d (by norm_num))
  · simp only [decide_eq_true_eq]
    exact List.mem_map_of_mem wd hd

lemma wdList_nodup (ds : List Int) : (wdList ds).Nodup := by
  unfold wdList
  refine List.Nodup.filter _ ?_
  refine List.Nodup.map ?_ (List.nodup_range 7)
  intro a b hab
  exact Int.natCast_inj.mp hab

lemma dummyBlock_names (ds : List Int) :
    (dummyBlock ds).map Prod.fst = (wdList ds).map wdName := by
  unfold dummyBlock
  rw [List.map_map]
  exact List.map_congr_left (fun w _ => rfl)

lemma filter_isWd_replace (cols : List (String × List Val)) (m : String) (vs : List Val)
    (hm : isWdCol m = false) :
    (cols.map (fun c => if c.1 = m then (m, vs) else c)).filter (fun c => isWdCol c.1) =
      cols.filter (fun c => isWdCol c.1) := by
  induction cols with
  | nil => rfl
  | cons c cs ih =>
    by_cases hc : c.1 = m
    · have hcw : isWdCol c.1 = false := by rw [hc]; exact hm
      simp [List.filter_cons, hc, hm, hcw, ih]
    · by_cases hw : isWdCol c.1 = true
      · simp [List.filter_cons, hc, hw, ih]
      · simp [List.filter_cons, hc, hw, ih]

lemma tableWdCols_setCol {df : Frame} {m : String} (hm : isWdCol m = false) (vs : List Val) :
    tableWdCols (setCol df m vs) = tableWdCols df := by
  unfold tableWdCols setCol
  by_cases hmem : m ∈ names df
  · rw [if_pos hmem]
    exact filter_isWd_replace df.cols m vs hm
  · rw [if_neg hmem, List.filter_append,
      show List.filter (fun c => isWdCol c.1) [(m, vs)] = [] from by simp [hm],
      List.append_nil]

lemma filter_isWd_dummyBlock (ds : List Int) :
    (dummyBlock ds).filter (fun c => isWdCol c.1) = dummyBlock ds := by
  refine List.filter_eq_self.mpr (fun c hc => ?_)
  obtain ⟨w, hw, rfl⟩ := List.mem_map.mp hc
  exact isWdCol_wdName w

lemma filter_isWd_replDate {cols : List (String × List Val)} {ds : List Int}
    (hpre : ∀ n ∈ cols.map Prod.fst, isWdCol n = false) :
    (replDate cols ds).filter (fun c => isWdCol c.1) = [] := by
  refine List.filter_eq_nil_iff.mpr (fun c hc => ?_)
  have hcn : c.1 ∈ cols.map Prod.fst := by
    have hmm := List.mem_map_of_mem Prod.fst hc
    rwa [names_replDate] at hmm
  simp [hpre c.1 hcn]

lemma lookup_struct_date {cols : List (String × List Val)} {ds : List Int}
    (hdm : "日付" ∈ cols.map Prod.fst) (block : List (String × List Val)) :
    lookupCol ⟨replDate cols ds ++ block⟩ "日付" = some (ds.map Val.vDate) := by
  unfold lookupCol replDate
  rw [List.find?_append, find_replaceAll hdm]
  rfl

lemma replDate_idem (cols : List (String × List Val)) (ds : List Int) :
    replDate (replDate cols ds) ds = replDate cols ds := by
  unfold replDate
  rw [List.map_map]
  refine List.map_congr_left (fun c _ => ?_)
  by_cases hc : c.1 = "日付" <;> simp [hc]

lemma replDate_dummyBlock (ds ds2 : List Int) :
    replDate (dummyBlock ds) ds2 = dummyBlock ds := by
  unfold replDate
  refine (List.map_congr_left (fun c hc => ?_)).trans (List.map_id _)
  obtain ⟨w, hw, rfl⟩ := List.mem_map.mp hc
  simp [wdName_ne_date w]

lemma replDate_struct (cols : List (String × List Val)) (ds : List Int) :
    replDate (replDate cols ds ++ dummyBlock ds) ds = replDate cols ds ++ dummyBlock ds := by
  have hsplit : replDate (replDate cols ds ++ dummyBlock ds) ds =
      replDate (replDate cols ds) ds ++ replDate (dummyBlock ds) ds := by
    unfold replDate
    exact List.map_append _ _ _
  rw [hsplit, replDate_idem, replDate_dummyBlock]

lemma tableWdCols_of_parts {df0 : Frame} {gc : String} {df : Frame} {ds : List Int}
    {gvals : List Val} (hp : forecastParts df0 gc = some (df, ds, gvals))
    (hyo : ¬ ("曜日" ∈ names df0))
    (hpre : ∀ n ∈ names df0, isWdCol n = false) :
    tableWdCols df = dummyBlock ds := by
  obtain ⟨dfA, sales, dcol, hA, hcln, hdf, hd, hprs, hg⟩ := parts_elim hp
  obtain ⟨dvals, ds0, h1, h2, hda⟩ := lookup_date_add hA
  have hl : lookupCol df "日付" = some (ds0.map Val.vDate) := by
    rw [hdf, lookupCol_setCol_ne _ (by decide)]
    exact hda
  rw [hl] at hd
  cases hd
  rw [parseAll_map_vDate] at hprs
  cases hprs
  have hstruct := add_ok_struct h1 h2 hyo
  rw [hA] at hstruct
  have hdfA := Except.ok.inj hstruct
  rw [hdf, tableWdCols_setCol (by decide), hdfA]
  unfold tableWdCols
  rw [List.filter_append, filter_isWd_replDate (fun n hn => hpre n hn),
    filter_isWd_dummyBlock, List.nil_append]

/-- Counterexample to C5 as stated: a one-row table (one Monday) gets ONE
weekday-indicator column from the Feature Builder, not seven. -/
theorem C5_counterexample :
    add_weekday_dummies cex5 = .ok cex5out ∧
    (cex5out.cols.filter (fun c => isWdCol c.1)).length = 1 ∧ ¬ ((1 : Nat) = 7) :=
  ⟨rfl, rfl, by decide⟩

/-- Claim C5, amended: for a parseable table (whose column names do not use the
builder's reserved `曜日` names), `add_weekday_dummies` normalizes the date
column to a calendar-date type and appends one boolean indicator column per
weekday PRESENT in the data (named `曜日_w`, 0 = Monday .. 6 = Sunday, rather
than always seven); in every row exactly one of the produced indicators is true,
the one agreeing with the row's weekday. -/
theorem C5_amended (df0 : Frame) (dvals : List Val) (ds : List Int)
    (h1 : lookupCol df0 "日付" = some dvals)
    (h2 : parseAll dvals = some ds)
    (hyo : ¬ ("曜日" ∈ names df0))
    (hpre : ∀ n ∈ names df0, isWdCol n = false) :
    ∃ out, add_weekday_dummies df0 = .ok out ∧
      lookupCol out "日付" = some (ds.map Val.vDate) ∧
      out.cols.filter (fun c => isWdCol c.1) = dummyBlock ds ∧
      (∀ d ∈ ds, wd d ∈ wdList ds) ∧
      (∀ i, i < ds.length →
        ((out.cols.filter (fun c => isWdCol c.1)).countP
          (fun c => decide (c.2.getD i (Val.vBool false) = Val.vBool true))) = 1) := by
  have hdm : "日付" ∈ names df0 := mem_names_of_lookup h1
  have hfil : (replDate df0.cols ds ++ dummyBlock ds).filter (fun c => isWdCol c.1) =
      dummyBlock ds := by
    rw [List.filter_append, filter_isWd_replDate (fun n hn => hpre n hn),
      filter_isWd_dummyBlock, List.nil_append]
  refine ⟨⟨replDate df0.cols ds ++ dummyBlock ds⟩, add_ok_struct h1 h2 hyo,
    lookup_struct_date hdm _, hfil, fun d hd => wd_mem_wdList hd, ?_⟩
  intro i hi
  rw [show (Frame.mk (replDate df0.cols ds ++ dummyBlock ds)).cols =
    replDate df0.cols ds ++ dummyBlock ds from rfl, hfil]
  have hpt : ∀ w ∈ wdList ds,
      ((fun c : String × List Val =>
          decide (c.2.getD i (Val.vBool false) = Val.vBool true)) ∘
        (fun w => (wdName w, ds.map (fun d => Val.vBool (decide (wd d = w)))))) w =
      decide (wd (ds.getD i 0) = w) := by
    intro w hw
    simp only [Function.comp]
    rw [getD_map hi (fun d => Val.vBool (decide (wd d = w))) (Val.vBool false) 0]
    by_cases hww : wd (ds.getD i 0) = w
    · simp [hww]
    · simp [hww]
  unfold dummyBlock
  rw [List.countP_map]
  have hcc := List.countP_congr (fun x hx => by rw [hpt x hx] :
    ∀ x ∈ wdList ds,
      ((fun c : String × List Val =>
          decide (c.2.getD i (Val.vBool false) = Val.vBool true)) ∘
        (fun w => (wdName w, ds.map (fun d => Val.vBool (decide (wd d = w)))))) x = true ↔
      decide (wd (ds.getD i 0) = x) = true)
  rw [hcc]
  exact countP_eq_one_of_nodup_mem (wdList_nodup ds) (wd_mem_wdList (getD_mem hi 0))

/-- Witness for the amended C5, on the ten-row table with all seven weekdays. -/
theorem C5_witness :
    ∃ out, add_weekday_dummies witDf = .ok out ∧
      lookupCol out "日付" =
        some (([0, 1, 2, 3, 4, 5, 6, 7, 8, 9] : List Int).map Val.vDate) ∧
      out.cols.filter (fun c => isWdCol c.1) = dummyBlock [0, 1, 2, 3, 4, 5, 6, 7, 8, 9] ∧
      (∀ d ∈ ([0, 1, 2, 3, 4, 5, 6, 7, 8, 9] : List Int),
        wd d ∈ wdList [0, 1, 2, 3, 4, 5, 6, 7, 8, 9]) ∧
      (∀ i, i < ([0, 1, 2, 3, 4, 5, 6, 7, 8, 9] : List Int).length →
        ((out.cols.filter (fun c => isWdCol c.1)).countP
          (fun c => decide (c.2.getD i (Val.vBool false) = Val.vBool true))) = 1) :=
  C5_amended witDf
    [Val.vStr "0", Val.vStr "1", Val.vStr "2", Val.vStr "3", Val.vStr "4",
     Val.vStr "5", Val.vStr "6", Val.vStr "7", Val.vStr "8", Val.vStr "9"]
    [0, 1, 2, 3, 4, 5, 6, 7, 8, 9] (by decide) (by decide) (by decide) (by decide)

/-- Counterexample to C6 as stated: in `cex6`, group `"A"`'s rows all fall on one
weekday (Monday), yet its training/prediction feature columns are the two
weekday columns of the whole table, `曜日_0` and `曜日_1` - not just `曜日_0`. -/
theorem C6_counterexample :
    (forecastParts cex6 "g").map
        (fun t => (groupXcols t.1 t.2.2 (Val.vStr "A")).map Prod.fst) =
      some ["曜日_0", "曜日_1"] ∧
    (forecast cex6 "g" fit0 7).toOption.map (fun r => r.map Prod.fst) =
      some [Val.vStr "A", Val.vStr "B"] ∧
    tableDates cex6 = some cex6ds ∧
    ((maskFilter cex6g (Val.vStr "A") cex6ds).map wd).dedup = [0] ∧
    ¬ (["曜日_0", "曜日_1"] = ["曜日_0"]) :=
  ⟨rfl, rfl, rfl, rfl, by decide⟩

/-- Claim C6, amended: at prediction (and training) time every group's feature
columns are exactly the weekday-indicator columns of the WHOLE augmented table -
one per weekday present anywhere in the input, the same set for every group -
which may strictly include weekdays the group itself never showed. -/
theorem C6_amended (df0 : Frame) (gc : String) (fit : Fit) (periods : Nat)
    (res : List (Val × List (Int × ℚ))) (k : Val) (gf : List (Int × ℚ))
    (h : forecast df0 gc fit periods = .ok res) (hm : (k, gf) ∈ res)
    (hyo : ¬ ("曜日" ∈ names df0))
    (hpre : ∀ n ∈ names df0, isWdCol n = false) :
    ∃ df ds gvals, forecastParts df0 gc = some (df, ds, gvals) ∧
      (groupXcols df gvals k).map Prod.fst = (wdList ds).map wdName := by
  obtain ⟨df, ds, gvals, hp, rfl⟩ := forecast_ok_parts h
  refine ⟨df, ds, gvals, hp, ?_⟩
  unfold groupXcols
  rw [List.map_map, tableWdCols_of_parts hp hyo hpre]
  unfold dummyBlock
  rw [List.map_map]
  exact List.map_congr_left (fun w _ => rfl)

/-- Witness for the amended C6. -/
theorem C6_witness :
    ∃ df ds gvals, forecastParts witDf "商品名" = some (df, ds, gvals) ∧
      (groupXcols df gvals (Val.vStr "A")).map Prod.fst = (wdList ds).map wdName := by
  have hm : (Val.vStr "A", witGf) ∈ witRes := by
    rw [show witRes = [(Val.vStr "A", witGf)] from rfl]
    exact List.mem_singleton_self _
  exact C6_amended witDf "商品名" fit0 7 witRes (Val.vStr "A") witGf rfl hm
    (by decide) (by decide)

/-- Counterexample to C7 as stated: re-running the Feature Builder appends a
second copy of the `曜日_0` indicator column, so the indicator columns of the
twice-processed table differ from those of the once-processed table. -/
theorem C7_counterexample :
    add_weekday_dummies cex5 = .ok cex5out ∧
    add_weekday_dummies cex5out = .ok cex7out2 ∧
    ¬ (cex7out2.cols.filter (fun c => isWdCol c.1) =
        cex5out.cols.filter (fun c => isWdCol c.1)) :=
  ⟨rfl, rfl, by decide⟩

/-- Claim C7, amended: re-running the Feature Builder on its own output
re-derives an indicator block with identical names and values, but pandas
appends it instead of replacing, so the result is the first output with a
second identical copy of every weekday-indicator column at the end. -/
theorem C7_amended (df0 : Frame) (dvals : List Val) (ds : List Int)
    (h1 : lookupCol df0 "日付" = some dvals)
    (h2 : parseAll dvals = some ds)
    (hyo : ¬ ("曜日" ∈ names df0)) :
    ∃ o1, add_weekday_dummies df0 = .ok o1 ∧
      o1.cols = replDate df0.cols ds ++ dummyBlock ds ∧
      add_weekday_dummies o1 = .ok ⟨o1.cols ++ dummyBlock ds⟩ := by
  refine ⟨⟨replDate df0.cols ds ++ dummyBlock ds⟩, add_ok_struct h1 h2 hyo, rfl, ?_⟩
  have hdm : "日付" ∈ names df0 := mem_names_of_lookup h1
  have hl : lookupCol ⟨replDate df0.cols ds ++ dummyBlock ds⟩ "日付" =
      some (ds.map Val.vDate) := lookup_struct_date hdm _
  have hyo1 : ¬ ("曜日" ∈ names (⟨replDate df0.cols ds ++ dummyBlock ds⟩ : Frame)) := by
    unfold names
    rw [show (Frame.mk (replDate df0.cols ds ++ dummyBlock ds)).cols =
      replDate df0.cols ds ++ dummyBlock ds from rfl, List.map_append, names_replDate]
    intro hmem
    rcases List.mem_append.mp hmem with hmem | hmem
    · exact hyo hmem
    · rw [dummyBlock_names] at hmem
      obtain ⟨w, hw, hweq⟩ := List.mem_map.mp hmem
      exact wdName_ne_yo w hweq
  have hstruct := add_ok_struct hl (parseAll_map_vDate ds) hyo1
  rw [hstruct, show (Frame.mk (replDate df0.cols ds ++ dummyBlock ds)).cols =
    replDate df0.cols ds ++ dummyBlock ds from rfl, replDate_struct]

/-- Witness for the amended C7. -/
theorem C7_witness :
    ∃ o1, add_weekday_dummies witDf = .ok o1 ∧
      o1.cols = replDate witDf.cols [0, 1, 2, 3, 4, 5, 6, 7, 8, 9] ++
        dummyBlock [0, 1, 2, 3, 4, 5, 6, 7, 8, 9] ∧
      add_weekday_dummies o1 = .ok ⟨o1.cols ++ dummyBlock [0, 1, 2, 3, 4, 5, 6, 7, 8, 9]⟩ :=
  C7_amended witDf
    [Val.vStr "0", Val.vStr "1", Val.vStr "2", Val.vStr "3", Val.vStr "4",
     Val.vStr "5", Val.vStr "6", Val.vStr "7", Val.vStr "8", Val.vStr "9"]
    [0, 1, 2, 3, 4, 5, 6, 7, 8, 9] (by decide) (by decide) (by decide)

/-- Counterexample to C9 as stated: a pre-existing non-date column named `曜日`
does not survive the Feature Builder - its values are overwritten by the
derived weekday and the column is then consumed by `get_dummies`. -/
theorem C9_counterexample :
    add_weekday_dummies cex9 = .ok cex9out ∧
    lookupCol cex9 "曜日" = some [Val.vStr "x"] ∧
    lookupCol cex9out "曜日" = none :=
  ⟨rfl, rfl, rfl⟩

/-- Claim C9, amended: for parseable tables with no column named `曜日` (the
builder's scratch name), the Feature Builder drops no rows and reorders
nothing: every pre-existing column other than the date column is kept unchanged
in its position, the date column is replaced in place by its parsed dates, the
indicator block is appended at the end, and every output column keeps the input
row count. -/
theorem C9_amended (df0 : Frame) (dvals : List Val) (ds : List Int)
    (h1 : lookupCol df0 "日付" = some dvals)
    (h2 : parseAll dvals = some ds)
    (hyo : ¬ ("曜日" ∈ names df0))
    (hlen : ∀ p ∈ df0.cols, p.2.length = dvals.length) :
    ∃ out, add_weekday_dummies df0 = .ok out ∧
      out.cols = replDate df0.cols ds ++ dummyBlock ds ∧
      (∀ p ∈ df0.cols, ¬ (p.1 = "日付") → p ∈ out.cols) ∧
      (∀ p ∈ out.cols, p.2.length = dvals.length) := by
  refine ⟨⟨replDate df0.cols ds ++ dummyBlock ds⟩, add_ok_struct h1 h2 hyo, rfl, ?_, ?_⟩
  · intro p hp hpd
    refine List.mem_append.mpr (Or.inl ?_)
    unfold replDate
    refine List.mem_map.mpr ⟨p, hp, ?_⟩
    rw [if_neg hpd]
  · intro p hp
    have hdl : ds.length = dvals.length := parseAll_length h2
    rcases List.mem_append.mp hp with hp2 | hp2
    · obtain ⟨q, hq, hqe⟩ := List.mem_map.mp hp2
      by_cases hqd : q.1 = "日付"
      · rw [if_pos hqd] at hqe
        rw [← hqe]
        simpa using hdl
      · rw [if_neg hqd] at hqe
        rw [← hqe]
        exact hlen q hq
    · obtain ⟨w, hw, hwe⟩ := List.mem_map.mp hp2
      rw [← hwe]
      simpa using hdl

/-- Witness for the amended C9. -/
theorem C9_witness :
    ∃ out, add_weekday_dummies witDf = .ok out ∧
      out.cols = replDate witDf.cols [0, 1, 2, 3, 4, 5, 6, 7, 8, 9] ++
        dummyBlock [0, 1, 2, 3, 4, 5, 6, 7, 8, 9] ∧
      (∀ p ∈ witDf.cols, ¬ (p.1 = "日付") → p ∈ out.cols) ∧
      (∀ p ∈ out.cols, p.2.length =
        ([Val.vStr "0", Val.vStr "1", Val.vStr "2", Val.vStr "3", Val.vStr "4",
          Val.vStr "5", Val.vStr "6", Val.vStr "7", Val.vStr "8", Val.vStr "9"]).length) :=
  C9_amended witDf
    [Val.vStr "0", Val.vStr "1", Val.vStr "2", Val.vStr "3", Val.vStr "4",
     Val.vStr "5", Val.vStr "6", Val.vStr "7", Val.vStr "8", Val.vStr "9"]
    [0, 1, 2, 3, 4, 5, 6, 7, 8, 9] (by decide) (by decide) (by decide) (by decide)
